import Mathlib

/-!
Verification development for the offline-resilient upload queue of the
"I'm Emo Now" experience-sampling app.

The embedding follows two source modules:

* `src/utils/uploadQueue.ts` — the `UploadQueue` class (in-memory `Map`,
  single-flight `processQueue` loop, per-item attempt state machine,
  retry/backoff timer).
* `src/utils/database.ts` (re-exported through `src/utils/api.ts`) — the
  SQLite-backed durable store: the `upload_queue` table with `id TEXT
  PRIMARY KEY`, and the helpers `addToUploadQueue`, `getPendingUploads`,
  `updateUploadQueueStatus`, `removeFromUploadQueue`.

Modelling conventions:

* The durable `upload_queue` table is a `List UploadQueueRecord`; `id` is a
  primary key, so inserting a duplicate id fails.
* The in-memory `Map<string, UploadQueueRecord>` is an association list in
  insertion order; `Map.set` replaces an existing key in place or appends.
* Wall-clock instants are `Nat` milliseconds, passed explicitly where the
  source calls `Date.now()`.
* Network connectivity and the two transfer functions
  (`uploadSessionMetadata`, `uploadVideoFile`) are external collaborators;
  they are modelled by an `UploadEnv` of boolean outcomes (the transfer
  stubs catch all errors internally and return `{success, error?}`).
* `JavaScript` object aliasing: `processQueue` stores the very record object
  it passes to `processItem` in the memory map, so the source's in-place
  mutations (`item.retry_count += 1`, `item.next_retry_at = ...`) are
  modelled as updates of the memory map entry with that id.
-/

/-- `status` column of `upload_queue` (database.ts line 203). -/
inductive UploadStatus
  | pending
  | uploading
  | completed
  | failed
deriving DecidableEq, Repr

/-- `UploadQueueRecord` (database.ts lines 195-209).  `latitude`/`longitude`
are REAL columns whose values never influence queue control flow; they are
carried as `Option Int` placeholders. -/
structure UploadQueueRecord where
  id : String
  session_id : String
  timestamp : String
  emotion_score : Int
  latitude : Option Int
  longitude : Option Int
  video_uri : Option String
  status : UploadStatus
  retry_count : Nat
  error_message : Option String
  created_at : Nat
  next_retry_at : Nat
  uploaded_at : Option Nat
deriving DecidableEq, Repr

/-- The argument of `addToQueue` (uploadQueue.ts lines 62-72): a record with
the engine-filled fields omitted. -/
structure NewQueueItem where
  id : String
  session_id : String
  timestamp : String
  emotion_score : Int
  latitude : Option Int
  longitude : Option Int
  video_uri : Option String
deriving DecidableEq, Repr

/-- External collaborators: connectivity (`NetInfo.fetch`) and the outcomes
of the two transfer stubs.  `metadataError` is the message carried by a
failed metadata response (`metadataResponse.error || 'Failed to upload
metadata'`), `videoError` likewise for the video response. -/
structure UploadEnv where
  isConnected : Bool
  metadataSuccess : Bool
  videoSuccess : Bool
  metadataError : String
  videoError : String
deriving DecidableEq, Repr

/-! ## The in-memory `Map<string, UploadQueueRecord>` -/

/-- The in-memory queue: association list in insertion order. -/
abbrev MemQueue := List (String × UploadQueueRecord)

/-- `Map.set`: replace the entry with this key in place, or append. -/
def mapSet : MemQueue → String → UploadQueueRecord → MemQueue
  | [], id, v => [(id, v)]
  | p :: rest, id, v =>
      if decide (p.1 = id) then (id, v) :: rest else p :: mapSet rest id v

/-- `Map.get`. -/
def mapGet (m : MemQueue) (id : String) : Option UploadQueueRecord :=
  (m.find? fun p => decide (p.1 = id)).map Prod.snd

/-- `Map.delete`. -/
def mapDelete (m : MemQueue) (id : String) : MemQueue :=
  m.filter fun p => decide (¬ p.1 = id)

/-- `Map.has`. -/
def mapHas (m : MemQueue) (id : String) : Bool :=
  m.any fun p => decide (p.1 = id)

/-- In-place mutation of the record object stored under `id` (the source
mutates the aliased object, e.g. `item.retry_count += 1`). -/
def mapUpdate (m : MemQueue) (id : String) (f : UploadQueueRecord → UploadQueueRecord) : MemQueue :=
  m.map fun p => if decide (p.1 = id) then (p.1, f p.2) else p

/-! ## The durable store (database.ts) -/

/-- `INSERT INTO upload_queue ...` (database.ts lines 464-492).  The column
list omits `uploaded_at`, which therefore starts NULL; `id TEXT PRIMARY KEY`
(line 246) rejects a duplicate id, and the helper rethrows the error. -/
def addToUploadQueue (db : List UploadQueueRecord) (record : UploadQueueRecord) :
    Except String (List UploadQueueRecord) :=
  if db.any fun r => decide (r.id = record.id) then
    Except.error "UNIQUE constraint failed: upload_queue.id"
  else
    Except.ok (db ++ [{ record with uploaded_at := none }])

/-- Insertion step of `ORDER BY created_at ASC`. -/
def insertByCreatedAt (r : UploadQueueRecord) : List UploadQueueRecord → List UploadQueueRecord
  | [] => [r]
  | x :: xs =>
      if x.created_at ≤ r.created_at then x :: insertByCreatedAt r xs
      else r :: x :: xs

/-- `ORDER BY created_at ASC` as a stable insertion sort. -/
def sortByCreatedAt : List UploadQueueRecord → List UploadQueueRecord
  | [] => []
  | x :: xs => insertByCreatedAt x (sortByCreatedAt xs)

/-- `WHERE status IN ('pending', 'failed')`. -/
def isPendingOrFailed (r : UploadQueueRecord) : Bool :=
  decide (r.status = UploadStatus.pending) || decide (r.status = UploadStatus.failed)

/-- `getPendingUploads` (database.ts lines 499-516):
`SELECT * FROM upload_queue WHERE status IN ('pending', 'failed') ORDER BY
created_at ASC`, with `LIMIT ? OFFSET ?` appended only when the `limit`
argument is passed and truthy (nonzero). -/
def getPendingUploads (db : List UploadQueueRecord) (limit : Option Nat) (offset : Nat) :
    List UploadQueueRecord :=
  let base := sortByCreatedAt (db.filter isPendingOrFailed)
  match limit with
  | none => base
  | some l => if l ≠ 0 then (base.drop offset).take l else base

/-- `SELECT * FROM upload_queue WHERE id = ?` (database.ts lines 521-533). -/
def getUploadQueueItem (db : List UploadQueueRecord) (id : String) : Option UploadQueueRecord :=
  db.find? fun r => decide (r.id = id)

/-- `updateUploadQueueStatus` (database.ts lines 538-574): updates `status`,
plus `retry_count` / `error_message` only when those arguments are passed,
plus `uploaded_at = Date.now()` exactly when the new status is `completed`.
There is no parameter for `next_retry_at`; the function never writes that
column. -/
def updateUploadQueueStatus (db : List UploadQueueRecord) (id : String)
    (status : UploadStatus) (retryCount : Option Nat) (errorMessage : Option String)
    (now : Nat) : List UploadQueueRecord :=
  db.map fun r =>
    if decide (r.id = id) then
      { r with
        status := status
        retry_count := match retryCount with | some rc => rc | none => r.retry_count
        error_message := match errorMessage with | some e => some e | none => r.error_message
        uploaded_at := if decide (status = UploadStatus.completed) then some now else r.uploaded_at }
    else r

/-- `DELETE FROM upload_queue WHERE id = ?` (database.ts lines 579-587). -/
def removeFromUploadQueue (db : List UploadQueueRecord) (id : String) : List UploadQueueRecord :=
  db.filter fun r => decide (¬ r.id = id)

/-! ## Queue engine state (uploadQueue.ts lines 12-18) -/

/-- The mutable fields of the `UploadQueue` singleton: the durable store it
talks to, the in-memory `Map`, the single-flight guard, and the armed
one-shot retry timer (`some delay` = a timer armed for `delay` ms). -/
structure QueueState where
  db : List UploadQueueRecord
  queue : MemQueue
  isProcessing : Bool
  retryTimer : Option Nat
deriving DecidableEq, Repr

def emptyState : QueueState := ⟨[], [], false, none⟩

/-- `maxRetries = 3` (uploadQueue.ts line 17). -/
def maxRetries : Nat := 3

/-- `retryDelayMs = 5000` (uploadQueue.ts line 18). -/
def retryDelayMs : Nat := 5000

/-- `BATCH_SIZE = 5` (uploadQueue.ts line 185). -/
def BATCH_SIZE : Nat := 5

/-- `getQueueItems` (uploadQueue.ts lines 104-106). -/
def getQueueItems (s : QueueState) : List UploadQueueRecord :=
  s.queue.map Prod.snd

/-- `getQueueItem` (uploadQueue.ts lines 111-113). -/
def getQueueItem (s : QueueState) (id : String) : Option UploadQueueRecord :=
  mapGet s.queue id

/-- `updateItemStatus` (uploadQueue.ts lines 319-331): mutates only the
in-memory map — it sets `status` on the stored object and overwrites
`error_message` only when a message is passed.  It performs no database
write. -/
def updateItemStatus (s : QueueState) (id : String) (status : UploadStatus)
    (errorMessage : Option String) : QueueState :=
  match mapGet s.queue id with
  | none => s
  | some item =>
      { s with
        queue := mapSet s.queue id
          { item with
            status := status
            error_message := match errorMessage with | some e => some e | none => item.error_message } }

/-- `scheduleQueueProcessing` (uploadQueue.ts lines 370-383): clears any
existing timer and arms a one-shot timer for `delay` ms. -/
def scheduleQueueProcessing (s : QueueState) (delay : Nat) : QueueState :=
  { s with retryTimer := some delay }

/-- The message of the error thrown inside the `try` block of `processItem`
(uploadQueue.ts lines 262-269): the metadata failure wins, otherwise the
video failure. -/
def attemptErrorMessage (env : UploadEnv) : String :=
  if env.metadataSuccess = false then env.metadataError else env.videoError

/-- `this.queue.delete(item.id)` (uploadQueue.ts line 272). -/
def deleteFromMemory (s : QueueState) (id : String) : QueueState :=
  { s with queue := mapDelete s.queue id }

/-- An awaited `updateUploadQueueStatus` call: writes only the durable
store. -/
def persistStatus (s : QueueState) (id : String) (status : UploadStatus)
    (retryCount : Option Nat) (errorMessage : Option String) (now : Nat) : QueueState :=
  { s with db := updateUploadQueueStatus s.db id status retryCount errorMessage now }

/-- `item.retry_count += 1` (uploadQueue.ts line 280): mutates the record
object aliased by the in-memory map. -/
def bumpRetryCount (s : QueueState) (id : String) (rc : Nat) : QueueState :=
  { s with queue := mapUpdate s.queue id fun r => { r with retry_count := rc } }

/-- `item.next_retry_at = Date.now() + delay` (uploadQueue.ts line 286):
mutates the record object aliased by the in-memory map. -/
def setNextRetryAt (s : QueueState) (id : String) (t : Nat) : QueueState :=
  { s with queue := mapUpdate s.queue id fun r => { r with next_retry_at := t } }

/-- `processItem` (uploadQueue.ts lines 223-314) as the list of states after
each primitive effect, paired with the final state.  The steps, in source
order:
1. `NetInfo.fetch()`; if disconnected, return with no state change.
2. If `retry_count ≥ maxRetries`, memory-only `updateItemStatus(id,'failed')`
   and return.
3. Memory-only `updateItemStatus(id, 'uploading')`.
4. Run both transfers concurrently; success iff the metadata transfer
   succeeds and (no video is present or the video transfer succeeds).
5. On success: delete from the memory map, then persist
   `updateUploadQueueStatus(id, 'completed')` (which also sets
   `uploaded_at = now`).
6. On failure: `item.retry_count += 1` (mutates the aliased memory object),
   memory-only `updateItemStatus(id, 'failed', errorMessage)`; then if
   `retry_count < maxRetries`: `delay = retryDelayMs * 2^(retry_count-1)`,
   `item.next_retry_at = now + delay` (memory object again), persist
   `updateUploadQueueStatus(id, 'failed', retry_count, errorMessage)`, and
   arm the retry timer; otherwise persist the same fields and arm nothing. -/
def processItemT (env : UploadEnv) (now : Nat) (s : QueueState) (item : UploadQueueRecord) :
    List QueueState × QueueState :=
  if env.isConnected = false then
    ([s], s)
  else if maxRetries ≤ item.retry_count then
    let s1 := updateItemStatus s item.id UploadStatus.failed none
    ([s, s1], s1)
  else
    let s1 := updateItemStatus s item.id UploadStatus.uploading none
    let success := env.metadataSuccess && (item.video_uri.isNone || env.videoSuccess)
    if success then
      let s2 := deleteFromMemory s1 item.id
      let s3 := persistStatus s2 item.id UploadStatus.completed none none now
      ([s, s1, s2, s3], s3)
    else
      let msg := attemptErrorMessage env
      let rc := item.retry_count + 1
      let s2 := bumpRetryCount s1 item.id rc
      let s3 := updateItemStatus s2 item.id UploadStatus.failed (some msg)
      if rc < maxRetries then
        let delay := retryDelayMs * 2 ^ (rc - 1)
        let s4 := setNextRetryAt s3 item.id (now + delay)
        let s5 := persistStatus s4 item.id UploadStatus.failed (some rc) (some msg) now
        let s6 := scheduleQueueProcessing s5 delay
        ([s, s1, s2, s3, s4, s5, s6], s6)
      else
        let s4 := persistStatus s3 item.id UploadStatus.failed (some rc) (some msg) now
        ([s, s1, s2, s3, s4], s4)

/-- Final state of one `processItem` call. -/
def processItem (env : UploadEnv) (now : Nat) (s : QueueState) (item : UploadQueueRecord) :
    QueueState :=
  (processItemT env now s item).2

/-- The inner `for` loop of a `processQueue` batch (uploadQueue.ts lines
204-210): for each item of the page, `this.queue.set(dbItem.id, dbItem)`
then `await this.processItem(dbItem)`, serially. -/
def processBatchT (env : UploadEnv) (now : Nat) :
    QueueState → List UploadQueueRecord → List QueueState × QueueState
  | s, [] => ([], s)
  | s, item :: rest =>
      let sSet : QueueState := { s with queue := mapSet s.queue item.id item }
      let pi' := processItemT env now sSet item
      let pb := processBatchT env now pi'.2 rest
      (sSet :: pi'.1 ++ pb.1, pb.2)

/-- The `while (hasMoreItems)` loop of `processQueue` (uploadQueue.ts lines
189-214): fetch a page of 5 from the store, stop if empty, keep items whose
`next_retry_at ≤ now`, process them, advance `offset` by the batch size.
`fuel` bounds the iteration count; `processQueue` passes `db.length + 1`,
which exceeds the number of nonempty pages the loop can see (statuses are
the only thing the loop changes, so the table never grows mid-pass). -/
def processLoopT (env : UploadEnv) (now : Nat) :
    Nat → Nat → QueueState → List QueueState × QueueState
  | 0, _, s => ([], s)
  | Nat.succ fuel, offset, s =>
      let dbItems := getPendingUploads s.db (some BATCH_SIZE) offset
      if dbItems.isEmpty then ([], s)
      else
        let itemsToProcess := dbItems.filter fun r => decide (r.next_retry_at ≤ now)
        let pb := processBatchT env now s itemsToProcess
        let pl := processLoopT env now fuel (offset + BATCH_SIZE) pb.2
        (pb.1 ++ pl.1, pl.2)

/-- `processQueue` (uploadQueue.ts lines 175-218) with its trace of
intermediate states: the single-flight guard returns immediately when a pass
is already running; otherwise the guard is taken, the paged loop runs, and
the guard is released in the `finally` block. -/
def processQueueT (env : UploadEnv) (now : Nat) (s : QueueState) :
    List QueueState × QueueState :=
  if s.isProcessing then ([s], s)
  else
    let s1 : QueueState := { s with isProcessing := true }
    let pl := processLoopT env now (s1.db.length + 1) 0 s1
    let s2 : QueueState := { pl.2 with isProcessing := false }
    (s :: s1 :: pl.1 ++ [s2], s2)

/-- Final state of one `processQueue` call. -/
def processQueue (env : UploadEnv) (now : Nat) (s : QueueState) : QueueState :=
  (processQueueT env now s).2

/-! ## enqueue, startup recovery, clear -/

/-- The record built at the top of `addToQueue` (uploadQueue.ts lines
73-81): the caller's fields plus `status='pending'`, `retry_count=0`,
`error_message=null`, `created_at=Date.now()`, `next_retry_at=0`,
`uploaded_at=null`. -/
def mkQueueRecord (item : NewQueueItem) (now : Nat) : UploadQueueRecord :=
  { id := item.id
    session_id := item.session_id
    timestamp := item.timestamp
    emotion_score := item.emotion_score
    latitude := item.latitude
    longitude := item.longitude
    video_uri := item.video_uri
    status := UploadStatus.pending
    retry_count := 0
    error_message := none
    created_at := now
    next_retry_at := 0
    uploaded_at := none }

/-- Observable effects of one `addToQueue` call, in execution order. -/
inductive QueueEvent
  | memInsert (id : String)
  | dbInsert (id : String)
  | memDelete (id : String)
  | processTrigger
deriving DecidableEq, Repr

/-- Result of an `addToQueue` call: the state it leaves behind, the error it
throws (if any), and its effect trace. -/
structure AddResult where
  state : QueueState
  error : Option String
  events : List QueueEvent
deriving DecidableEq, Repr

/-- `addToQueue` (uploadQueue.ts lines 62-99), in source order:
1. build the record (`mkQueueRecord`);
2. `this.queue.set(item.id, queueItem)` — the in-memory map first (line 83);
3. `await addToUploadQueue(queueItem)` (line 88); on error,
   `this.queue.delete(item.id)` and rethrow (lines 93-94);
4. on success, `this.processQueue()` (line 98). -/
def addToQueue (env : UploadEnv) (now : Nat) (s : QueueState) (item : NewQueueItem) : AddResult :=
  let queueItem := mkQueueRecord item now
  let s1 : QueueState := { s with queue := mapSet s.queue item.id queueItem }
  match addToUploadQueue s1.db queueItem with
  | Except.error e =>
      { state := { s1 with queue := mapDelete s1.queue item.id }
        error := some e
        events := [QueueEvent.memInsert item.id, QueueEvent.memDelete item.id] }
  | Except.ok db2 =>
      { state := processQueue env now { s1 with db := db2 }
        error := none
        events := [QueueEvent.memInsert item.id, QueueEvent.dbInsert item.id,
                   QueueEvent.processTrigger] }

/-- The prefix of `addToQueue` up to and including the successful database
insert (uploadQueue.ts lines 73-89), i.e. the state visible at the moment
the call suspends on its trigger: used to build the state of several
overlapping `addToQueue` calls whose `processQueue` triggers have not run
yet (all triggers but the first then hit the single-flight guard). -/
def addToQueuePersistOnly (s : QueueState) (item : NewQueueItem) (now : Nat) : QueueState :=
  let queueItem := mkQueueRecord item now
  let s1 : QueueState := { s with queue := mapSet s.queue item.id queueItem }
  match addToUploadQueue s1.db queueItem with
  | Except.error _ => { s1 with queue := mapDelete s1.queue item.id }
  | Except.ok db2 => { s1 with db := db2 }

/-- `loadQueueFromDatabase` (uploadQueue.ts lines 337-364): fetch
`getPendingUploads()` (no limit), clear the memory map, then for each
returned record: if its status is `uploading`, persist a reset to `pending`;
in all cases `this.queue.set(record.id, record)` with the record object as
fetched. -/
def loadQueueFromDatabase (s : QueueState) : QueueState :=
  let records := getPendingUploads s.db none 0
  let s1 : QueueState := { s with queue := [] }
  records.foldl
    (fun acc record =>
      let acc2 :=
        if decide (record.status = UploadStatus.uploading) then
          { acc with db := updateUploadQueueStatus acc.db record.id UploadStatus.pending none none 0 }
        else acc
      { acc2 with queue := mapSet acc2.queue record.id record })
    s1

/-- `initialize` (uploadQueue.ts lines 23-42): load the queue from the
database, then poll connectivity and run `processQueue` if connected.
(Network-listener registration has no effect on the modelled state.) -/
def initializeUploadQueue (env : UploadEnv) (now : Nat) (s : QueueState) : QueueState :=
  let s1 := loadQueueFromDatabase s
  if env.isConnected then processQueue env now s1 else s1

/-- Result of a `clearQueue` call. -/
structure ClearResult where
  state : QueueState
  error : Option String
deriving DecidableEq, Repr

/-- `clearQueue` (uploadQueue.ts lines 141-155): `this.queue.clear()` first,
then one bulk `DELETE FROM upload_queue;`.  `dbDeleteOk` is the outcome of
that external database call; on failure the error is logged and rethrown,
with the memory map already cleared. -/
def clearQueue (dbDeleteOk : Bool) (s : QueueState) : ClearResult :=
  let s1 : QueueState := { s with queue := [] }
  if dbDeleteOk then
    { state := { s1 with db := [] }, error := none }
  else
    { state := s1, error := some "Error clearing queue" }

/-- `removeFromQueue` (uploadQueue.ts lines 127-135): delete from memory,
then best-effort delete from the store (errors swallowed). -/
def removeFromQueue (s : QueueState) (id : String) : QueueState :=
  { s with queue := mapDelete s.queue id, db := removeFromUploadQueue s.db id }

/-! ## Concrete fixtures -/

/-- Connected environment in which both transfers succeed. -/
def envOK : UploadEnv := ⟨true, true, true, "", ""⟩

/-- Connected environment in which the metadata transfer always fails. -/
def envFail : UploadEnv := ⟨true, false, true, "err", "verr"⟩

/-- Disconnected environment. -/
def envOff : UploadEnv := ⟨false, true, true, "", ""⟩

/-- A metadata-only enqueue argument. -/
def mkItem (id : String) : NewQueueItem := ⟨id, "", "", 3, none, none, none⟩

/-- A durable row left in `uploading` state by a simulated crash. -/
def c1Rec : UploadQueueRecord :=
  ⟨"a", "", "", 3, none, none, none, UploadStatus.uploading, 1, none, 1, 0, none⟩

/-- A freshly enqueued row (`pending`, `retry_count = 0`). -/
def freshRec : UploadQueueRecord :=
  ⟨"a", "", "", 3, none, none, none, UploadStatus.pending, 0, none, 1, 0, none⟩

/-- Six overlapping `addToQueue` calls, each suspended after its successful
database insert; their `processQueue` triggers have not yet run. -/
def c2Start : QueueState :=
  [("a", 1), ("b", 2), ("c", 3), ("d", 4), ("e", 5), ("f", 6)].foldl
    (fun s p => addToQueuePersistOnly s (mkItem p.1) p.2) emptyState

/-- The single processing pass served by the first trigger (the other five
triggers run while `isProcessing` is true and return with no effect, by the
single-flight guard). -/
def c2Final : QueueState := processQueue envOK 100 c2Start

/-! ## Memory-map measures used by the mutual-exclusion invariant -/

/-- The key set of the in-memory map. -/
def memKeys (m : MemQueue) : List String := m.map Prod.fst

/-- Number of in-memory entries whose status is `uploading`. -/
def countUploading (m : MemQueue) : Nat :=
  m.countP fun p => decide (p.2.status = UploadStatus.uploading)

/-- Every `uploading` entry of the map has this key. -/
def uploadingOnlyAt (m : MemQueue) (id : String) : Prop :=
  ∀ p ∈ m, p.2.status = UploadStatus.uploading → p.1 = id

/-! ## Theorems -/

example :
    processQueue envOK 10 ⟨[freshRec], [], false, none⟩
      = ⟨[{ freshRec with status := UploadStatus.completed, uploaded_at := some 10 }],
        [], false, none⟩ := by decide

/-! ## C1 — crash recovery of `uploading` rows -/

/-- C1: the claim says a row persisted with `status='uploading'` is, on
`initialize()`, loaded into the in-memory map and reset to `pending` in both
the store and memory.  The code instead loads via `getPendingUploads`, whose
`WHERE status IN ('pending','failed')` clause never returns an `uploading`
row, so the reset branch on uploadQueue.ts line 346 is unreachable: this
theorem evaluates `initialize()` on a store holding exactly one `uploading`
row and shows the call leaves the entire state unchanged — the row keeps
`status='uploading'` in the store and is absent from the memory map. -/
theorem c1_code_eval :
    initializeUploadQueue envOK 50 ⟨[c1Rec], [], false, none⟩
      = ⟨[c1Rec], [], false, none⟩ := by decide

/-! ## C2 — eventual completion under always-successful transfers -/



/-- C2: the claim says that with always-successful transfers every enqueued
item eventually reaches `completed` and leaves `getQueueItems()`.  The pass
loop advances `offset` by 5 after each page, but completing the first page's
items removes them from the `status IN ('pending','failed')` result set, so
the page at offset 5 is already past the one remaining pending row: with six
items enqueued before a single pass, items a-e complete but item f is
skipped, stays `pending` in the store and in `getQueueItems()`, and no retry
timer is armed, so no further pass is triggered by these calls. -/
theorem c2_code_eval :
    ((getUploadQueueItem c2Final.db "a").map fun r => r.status) = some UploadStatus.completed
    ∧ ((getUploadQueueItem c2Final.db "e").map fun r => r.status) = some UploadStatus.completed
    ∧ ((getUploadQueueItem c2Final.db "f").map fun r => r.status) = some UploadStatus.pending
    ∧ ((getQueueItems c2Final).map fun r => r.id) = ["f"]
    ∧ c2Final.retryTimer = none := by decide

/-! ## C3 — persistence of the scheduled retry -/

/-- C3: the claim says a retryable failure persists `status`, `retryCount`,
`errorMessage` AND `nextRetryAt` to the durable store.  The code computes
`delay = 5000·2^(retryCount-1)`, sets `next_retry_at = now + delay` only on
the in-memory object, and persists through `updateUploadQueueStatus`, which
has no `next_retry_at` parameter: after the first failure at `now = 1000`
the memory row carries `next_retry_at = 6000` and the timer is armed for
5000 ms, but the durable row still has `next_retry_at = 0`. -/
theorem c3_code_eval :
    (processItem envFail 1000 ⟨[freshRec], [("a", freshRec)], false, none⟩ freshRec).retryTimer
        = some 5000
    ∧ ((mapGet (processItem envFail 1000 ⟨[freshRec], [("a", freshRec)], false, none⟩
          freshRec).queue "a").map fun r => r.next_retry_at) = some 6000
    ∧ ((getUploadQueueItem (processItem envFail 1000
          ⟨[freshRec], [("a", freshRec)], false, none⟩ freshRec).db "a").map
        fun r => (r.status, r.retry_count, r.error_message, r.next_retry_at))
        = some (UploadStatus.failed, 1, some "err", 0) := by decide

/-! ## C4 — transition persistence -/

/-- C4 counterexample: the claim says the transition to `uploading` is
written to the durable store immediately, so memory and store converge after
every transition.  In the `processItem` trace the state right after
`updateItemStatus(id, 'uploading')` (trace index 1) has the memory row in
`uploading` while the durable row is still `pending`, and the store is
bitwise unchanged — the transition was never persisted. -/
theorem c4_counterexample :
    ((mapGet ((processItemT envOK 9 ⟨[freshRec], [("a", freshRec)], false, none⟩
        freshRec).1.getD 1 emptyState).queue "a").map fun r => r.status)
        = some UploadStatus.uploading
    ∧ ((getUploadQueueItem ((processItemT envOK 9
          ⟨[freshRec], [("a", freshRec)], false, none⟩ freshRec).1.getD 1
          emptyState).db "a").map fun r => r.status) = some UploadStatus.pending
    ∧ ((processItemT envOK 9 ⟨[freshRec], [("a", freshRec)], false, none⟩
        freshRec).1.getD 1 emptyState).db = [freshRec] := by decide

/-! ## C5 — enqueue ordering -/

/-- C5 counterexample: the claim says `enqueue` persists first and only
after successful persistence adds the item to the in-memory set.  The
observable effect trace of a successful `addToQueue` call is
`[memInsert, dbInsert, processTrigger]`: the in-memory insert (uploadQueue.ts
line 83) strictly precedes the awaited database insert (line 88). -/
theorem c5_counterexample :
    (addToQueue envOff 7 emptyState (mkItem "a")).error = none
    ∧ (addToQueue envOff 7 emptyState (mkItem "a")).events
        = [QueueEvent.memInsert "a", QueueEvent.dbInsert "a", QueueEvent.processTrigger]
    ∧ ((addToQueue envOff 7 emptyState (mkItem "a")).events.findIdx
          fun e => decide (e = QueueEvent.memInsert "a"))
        < ((addToQueue envOff 7 emptyState (mkItem "a")).events.findIdx
          fun e => decide (e = QueueEvent.dbInsert "a")) := by decide


theorem mapGet_mapSet_self (m : MemQueue) (id : String) (v : UploadQueueRecord) :
    mapGet (mapSet m id v) id = some v := by
  induction m with
  | nil => simp [mapSet, mapGet, List.find?]
  | cons p rest ih =>
    by_cases h : p.1 = id
    · simp [mapSet, h, mapGet, List.find?]
    · simp [mapSet, h, mapGet, List.find?] at ih ⊢
      exact ih

theorem mapHas_mapDelete (m : MemQueue) (id : String) :
    mapHas (mapDelete m id) id = false := by
  simp [mapHas, mapDelete, List.any_eq_true, List.mem_filter]

/-- C10: `clearQueue` empties the in-memory map before issuing the bulk
delete against the durable store; when the delete fails the error
propagates, the memory map stays empty (`getQueueItems` returns `[]`) and
the durable store is unchanged; on success both end empty. -/
theorem c10_clear_queue (s : QueueState) (ok : Bool) :
    (clearQueue ok s).state.queue = []
    ∧ getQueueItems (clearQueue ok s).state = []
    ∧ (ok = false → (clearQueue ok s).error.isSome = true ∧ (clearQueue ok s).state.db = s.db)
    ∧ (ok = true → (clearQueue ok s).error = none ∧ (clearQueue ok s).state.db = []) := by
  cases ok <;> simp [clearQueue, getQueueItems]

/-- C9: enqueueing an id already present in the durable `upload_queue`
table (`id TEXT PRIMARY KEY`) makes the insert fail and `addToQueue`
rethrow; because the call first overwrote and then deleted the in-memory
entry for that id, the id is absent from the in-memory map afterwards —
including any previously enqueued item that held it — and the durable
store is unchanged. -/
theorem c9_duplicate_enqueue (env : UploadEnv) (now : Nat) (s : QueueState)
    (item : NewQueueItem) (old : UploadQueueRecord)
    (hdup : (s.db.any fun r => decide (r.id = item.id)) = true)
    (_hold : mapGet s.queue item.id = some old) :
    (addToQueue env now s item).error.isSome = true
    ∧ mapHas (addToQueue env now s item).state.queue item.id = false
    ∧ (addToQueue env now s item).state.db = s.db := by
  unfold addToQueue addToUploadQueue
  simp [mkQueueRecord, hdup, mapHas_mapDelete]

/-- C5 (amended): `addToQueue` fills in `status='pending'`,
`retryCount=0`, `createdAt=now`, `nextRetryAt=0`; it adds the item to the
in-memory map first (line 83), then persists it (line 88), and only after
a successful insert triggers processing; if persistence fails (duplicate
id in the second scenario) the call fails, the id is absent from the
in-memory map afterwards, and the store is unchanged. -/
theorem c5_amended_thm (env : UploadEnv) (item : NewQueueItem) (now : Nat) (q : MemQueue)
    (hoff : env.isConnected = false) :
    (mkQueueRecord item now).status = UploadStatus.pending
    ∧ (mkQueueRecord item now).retry_count = 0
    ∧ (mkQueueRecord item now).created_at = now
    ∧ (mkQueueRecord item now).next_retry_at = 0
    ∧ (addToQueue env now ⟨[], q, false, none⟩ item).error = none
    ∧ (addToQueue env now ⟨[], q, false, none⟩ item).events
        = [QueueEvent.memInsert item.id, QueueEvent.dbInsert item.id, QueueEvent.processTrigger]
    ∧ (addToQueue env now ⟨[], q, false, none⟩ item).state.db = [mkQueueRecord item now]
    ∧ mapGet (addToQueue env now ⟨[], q, false, none⟩ item).state.queue item.id
        = some (mkQueueRecord item now)
    ∧ (addToQueue env now ⟨[mkQueueRecord item now], q, false, none⟩ item).error.isSome = true
    ∧ mapHas (addToQueue env now ⟨[mkQueueRecord item now], q, false, none⟩ item).state.queue item.id
        = false
    ∧ (addToQueue env now ⟨[mkQueueRecord item now], q, false, none⟩ item).state.db
        = [mkQueueRecord item now] := by
  have hrec : { mkQueueRecord item now with uploaded_at := none } = mkQueueRecord item now := by
    simp [mkQueueRecord]
  refine ⟨rfl, rfl, rfl, rfl, ?_, ?_, ?_, ?_, ?_, ?_, ?_⟩ <;>
    simp only [addToQueue, addToUploadQueue, List.any_nil, List.any_cons, mkQueueRecord,
      decide_True, Bool.or_false, Bool.false_or, if_true, if_false] <;>
    simp [processQueue, processQueueT, processLoopT, BATCH_SIZE, getPendingUploads,
      sortByCreatedAt, insertByCreatedAt, isPendingOrFailed, processBatchT, processItemT,
      deleteFromMemory, persistStatus, bumpRetryCount, setNextRetryAt,
      hoff, mapGet_mapSet_self, mapHas_mapDelete, mkQueueRecord]

/-- C6: an attempt on an item succeeds exactly when the metadata
transfer reports success and (no video is present or the video transfer
reports success): the durable row ends `completed` iff that condition
holds; on success the row records `uploaded_at = now`, the item leaves the
in-memory map, and `getPendingUploads` no longer returns it, so no further
processing of the item occurs. -/
theorem c6_attempt_outcome (env : UploadEnv) (now : Nat) (r : UploadQueueRecord)
    (_hst : r.status = UploadStatus.pending) (hrc : r.retry_count < maxRetries)
    (hconn : env.isConnected = true) :
    (((getUploadQueueItem (processItem env now ⟨[r], [(r.id, r)], false, none⟩ r).db r.id).map
        fun x => x.status) = some UploadStatus.completed
      ↔ (env.metadataSuccess = true ∧ (r.video_uri = none ∨ env.videoSuccess = true)))
    ∧ ((env.metadataSuccess && (r.video_uri.isNone || env.videoSuccess)) = true →
        mapHas (processItem env now ⟨[r], [(r.id, r)], false, none⟩ r).queue r.id = false
        ∧ ((getUploadQueueItem (processItem env now ⟨[r], [(r.id, r)], false, none⟩ r).db r.id).map
            fun x => x.uploaded_at) = some (some now)
        ∧ getPendingUploads (processItem env now ⟨[r], [(r.id, r)], false, none⟩ r).db none 0 = []) := by
  obtain ⟨conn, ms, vs, me, ve⟩ := env
  simp only at hconn
  subst hconn
  have hnle : ¬ (maxRetries ≤ r.retry_count) := Nat.not_le.mpr hrc
  by_cases hrc2 : r.retry_count + 1 < maxRetries <;>
  cases ms <;> cases vs <;> cases hv : r.video_uri <;>
    simp [processItem, processItemT, hnle, updateItemStatus, mapGet, mapSet, List.find?,
      mapDelete, mapHas, mapUpdate, updateUploadQueueStatus, getUploadQueueItem,
      deleteFromMemory, persistStatus, bumpRetryCount, setNextRetryAt,
      getPendingUploads, sortByCreatedAt, isPendingOrFailed, attemptErrorMessage,
      scheduleQueueProcessing, hv, hrc2]

/-- One full processing pass over a synced single-item state whose
attempt fails while retries remain: the durable row gains
`status='failed'`, the incremented `retry_count` and the error message
(but keeps `next_retry_at`), the memory row additionally carries
`next_retry_at = now + delay`, and a timer is armed for
`delay = retryDelayMs * 2^(retry_count)`. -/
theorem processQueue_fail_retryable (env : UploadEnv) (now : Nat)
    (x y : UploadQueueRecord) (t : Option Nat)
    (hconn : env.isConnected = true) (hms : env.metadataSuccess = false)
    (hpf : x.status = UploadStatus.pending ∨ x.status = UploadStatus.failed)
    (hnr : x.next_retry_at = 0) (hrc : x.retry_count + 1 < maxRetries) :
    processQueue env now ⟨[x], [(x.id, y)], false, t⟩ =
      ⟨[{ x with
          status := UploadStatus.failed
          retry_count := x.retry_count + 1
          error_message := some env.metadataError }],
       [(x.id, { x with
            status := UploadStatus.failed
            retry_count := x.retry_count + 1
            error_message := some env.metadataError
            next_retry_at := now + retryDelayMs * 2 ^ x.retry_count })],
       false, some (retryDelayMs * 2 ^ x.retry_count)⟩ := by
  obtain ⟨conn, ms, vs, me, ve⟩ := env
  simp only at hconn hms
  subst hconn hms
  have hnle : ¬ (maxRetries ≤ x.retry_count) := by omega
  rcases hpf with hpf | hpf <;>
    simp [processQueue, processQueueT, processLoopT, BATCH_SIZE, getPendingUploads,
      sortByCreatedAt, insertByCreatedAt, isPendingOrFailed, processBatchT, processItemT,
      updateItemStatus, mapGet, mapSet, List.find?, mapDelete, mapUpdate,
      deleteFromMemory, persistStatus, bumpRetryCount, setNextRetryAt,
      updateUploadQueueStatus, attemptErrorMessage, scheduleQueueProcessing,
      hpf, hnr, hnle, hrc]

/-- One full processing pass whose failed attempt exhausts the retry
budget: same persisted fields, no `next_retry_at` update and no timer. -/
theorem processQueue_fail_terminal (env : UploadEnv) (now : Nat)
    (x y : UploadQueueRecord) (t : Option Nat)
    (hconn : env.isConnected = true) (hms : env.metadataSuccess = false)
    (hpf : x.status = UploadStatus.pending ∨ x.status = UploadStatus.failed)
    (hnr : x.next_retry_at = 0) (hlow : x.retry_count < maxRetries)
    (hrc : ¬ (x.retry_count + 1 < maxRetries)) :
    processQueue env now ⟨[x], [(x.id, y)], false, t⟩ =
      ⟨[{ x with
          status := UploadStatus.failed
          retry_count := x.retry_count + 1
          error_message := some env.metadataError }],
       [(x.id, { x with
            status := UploadStatus.failed
            retry_count := x.retry_count + 1
            error_message := some env.metadataError })],
       false, t⟩ := by
  obtain ⟨conn, ms, vs, me, ve⟩ := env
  simp only at hconn hms
  subst hconn hms
  have hnle : ¬ (maxRetries ≤ x.retry_count) := by omega
  rcases hpf with hpf | hpf <;>
    simp [processQueue, processQueueT, processLoopT, BATCH_SIZE, getPendingUploads,
      sortByCreatedAt, insertByCreatedAt, isPendingOrFailed, processBatchT, processItemT,
      updateItemStatus, mapGet, mapSet, List.find?, mapDelete, mapUpdate,
      deleteFromMemory, persistStatus, bumpRetryCount, setNextRetryAt,
      updateUploadQueueStatus, attemptErrorMessage, scheduleQueueProcessing,
      hpf, hnr, hnle, hrc]

/-- One full processing pass over a `failed` row whose `retry_count`
already reached `maxRetries`: the item is re-synced into memory and
skipped; the state is unchanged. -/
theorem processQueue_skip_exhausted (env : UploadEnv) (now : Nat)
    (x y : UploadQueueRecord) (t : Option Nat)
    (hconn : env.isConnected = true)
    (hf : x.status = UploadStatus.failed)
    (hnr : x.next_retry_at = 0) (hrc : maxRetries ≤ x.retry_count) :
    processQueue env now ⟨[x], [(x.id, y)], false, t⟩ = ⟨[x], [(x.id, x)], false, t⟩ := by
  obtain ⟨xid, xsid, xts, xes, xlat, xlng, xvid, xst, xrc, xem, xca, xnr, xua⟩ := x
  simp only at hf hnr
  subst hf hnr
  obtain ⟨conn, ms, vs, me, ve⟩ := env
  simp only at hconn
  subst hconn
  simp [processQueue, processQueueT, processLoopT, BATCH_SIZE, getPendingUploads,
    sortByCreatedAt, insertByCreatedAt, isPendingOrFailed, processBatchT, processItemT,
    updateItemStatus, mapGet, mapSet, List.find?, mapDelete, mapUpdate,
    deleteFromMemory, persistStatus, bumpRetryCount, setNextRetryAt,
    updateUploadQueueStatus, attemptErrorMessage, scheduleQueueProcessing, hrc]

/-- C7: with transfers that always fail, a fresh item fails on three
consecutive passes: the first two arm one-shot timers of 5000 ms and
10000 ms; after the third the durable row has `status='failed'` with
`retry_count = 3` and no timer is armed; a fourth pass picks the row up
again (a `failed` row is still returned by `getPendingUploads`), hits the
`retry_count ≥ maxRetries` guard, marks it `failed` in memory only, and
leaves the whole state unchanged. -/
theorem c7_terminal (env : UploadEnv) (r : UploadQueueRecord) (n1 n2 n3 n4 : Nat)
    (hst : r.status = UploadStatus.pending) (hrc : r.retry_count = 0)
    (hnr : r.next_retry_at = 0) (hconn : env.isConnected = true)
    (hms : env.metadataSuccess = false) :
    (processQueue env n1 ⟨[r], [(r.id, r)], false, none⟩).retryTimer = some 5000
    ∧ (processQueue env n2
        { processQueue env n1 ⟨[r], [(r.id, r)], false, none⟩ with
          retryTimer := none }).retryTimer = some 10000
    ∧ ((getUploadQueueItem (processQueue env n3
        { processQueue env n2
          { processQueue env n1 ⟨[r], [(r.id, r)], false, none⟩ with
            retryTimer := none } with
          retryTimer := none }).db r.id).map fun x => (x.status, x.retry_count))
        = some (UploadStatus.failed, 3)
    ∧ (processQueue env n3
        { processQueue env n2
          { processQueue env n1 ⟨[r], [(r.id, r)], false, none⟩ with
            retryTimer := none } with
          retryTimer := none }).retryTimer = none
    ∧ processQueue env n4 (processQueue env n3
        { processQueue env n2
          { processQueue env n1 ⟨[r], [(r.id, r)], false, none⟩ with
            retryTimer := none } with
          retryTimer := none })
      = processQueue env n3
        { processQueue env n2
          { processQueue env n1 ⟨[r], [(r.id, r)], false, none⟩ with
            retryTimer := none } with
          retryTimer := none } := by
  obtain ⟨xid, xsid, xts, xes, xlat, xlng, xvid, xst, xrc, xem, xca, xnr, xua⟩ := r
  simp only at hst hrc hnr
  subst hst hrc hnr
  have e1 := processQueue_fail_retryable env n1
    ⟨xid, xsid, xts, xes, xlat, xlng, xvid, UploadStatus.pending, 0, xem, xca, 0, xua⟩
    ⟨xid, xsid, xts, xes, xlat, xlng, xvid, UploadStatus.pending, 0, xem, xca, 0, xua⟩
    none hconn hms (Or.inl rfl) rfl (by norm_num [maxRetries])
  simp only [retryDelayMs] at e1
  rw [e1]
  have e2 := processQueue_fail_retryable env n2
    ⟨xid, xsid, xts, xes, xlat, xlng, xvid, UploadStatus.failed, 1, some env.metadataError, xca, 0, xua⟩
    ⟨xid, xsid, xts, xes, xlat, xlng, xvid, UploadStatus.failed, 1, some env.metadataError, xca,
      n1 + 5000 * 2 ^ 0, xua⟩
    none hconn hms (Or.inr rfl) rfl (by norm_num [maxRetries])
  simp only [retryDelayMs] at e2
  simp only [pow_zero, pow_one, Nat.mul_one]
  norm_num at e2 ⊢
  rw [e2]
  have e3 := processQueue_fail_terminal env n3
    ⟨xid, xsid, xts, xes, xlat, xlng, xvid, UploadStatus.failed, 2, some env.metadataError, xca, 0, xua⟩
    ⟨xid, xsid, xts, xes, xlat, xlng, xvid, UploadStatus.failed, 2, some env.metadataError, xca,
      n2 + 10000, xua⟩
    none hconn hms (Or.inr rfl) rfl (by norm_num [maxRetries]) (by norm_num [maxRetries])
  norm_num at e3
  rw [e3]
  have e4 := processQueue_skip_exhausted env n4
    ⟨xid, xsid, xts, xes, xlat, xlng, xvid, UploadStatus.failed, 3, some env.metadataError, xca, 0, xua⟩
    ⟨xid, xsid, xts, xes, xlat, xlng, xvid, UploadStatus.failed, 3, some env.metadataError, xca, 0, xua⟩
    none hconn rfl rfl (by norm_num [maxRetries])
  rw [e4]
  simp [getUploadQueueItem, List.find?]

theorem count_zero_iff (m : MemQueue) :
    countUploading m = 0 ↔ ∀ p ∈ m, ¬ p.2.status = UploadStatus.uploading := by
  simp [countUploading, List.countP_eq_zero]

theorem upOnly_of_count_zero (m : MemQueue) (id : String)
    (h : countUploading m = 0) : uploadingOnlyAt m id := by
  intro p hp hup
  exact absurd hup ((count_zero_iff m).mp h p hp)

theorem count_zero_of_not_key (m : MemQueue) (id : String)
    (h : uploadingOnlyAt m id) (hk : ¬ id ∈ memKeys m) : countUploading m = 0 := by
  rw [count_zero_iff]
  intro p hp hup
  exact hk ((h p hp hup) ▸ List.mem_map_of_mem Prod.fst hp)

theorem mem_mapSet (m : MemQueue) (id : String) (v : UploadQueueRecord)
    (p : String × UploadQueueRecord) (hp : p ∈ mapSet m id v) :
    p = (id, v) ∨ p ∈ m := by
  induction m with
  | nil => simpa [mapSet] using hp
  | cons q rest ih =>
    by_cases h : q.1 = id
    · simp [mapSet, h] at hp
      rcases hp with hp | hp
      · exact Or.inl (by simp [hp])
      · exact Or.inr (List.mem_cons_of_mem q hp)
    · simp [mapSet, h, List.mem_cons] at hp
      rcases hp with hp | hp
      · exact Or.inr (by simp [hp])
      · rcases ih hp with h1 | h1
        · exact Or.inl h1
        · exact Or.inr (List.mem_cons_of_mem q h1)

theorem mem_memKeys_mapSet (m : MemQueue) (id : String) (v : UploadQueueRecord)
    (k : String) (hk : k ∈ memKeys (mapSet m id v)) : k = id ∨ k ∈ memKeys m := by
  simp only [memKeys, List.mem_map] at hk
  obtain ⟨p, hp, rfl⟩ := hk
  rcases mem_mapSet m id v p hp with h | h
  · exact Or.inl (by simp [h])
  · exact Or.inr (List.mem_map_of_mem Prod.fst h)

theorem nodup_mapSet (m : MemQueue) (id : String) (v : UploadQueueRecord)
    (hn : (memKeys m).Nodup) : (memKeys (mapSet m id v)).Nodup := by
  induction m with
  | nil => simp [mapSet, memKeys]
  | cons q rest ih =>
    simp only [memKeys, List.map_cons, List.nodup_cons] at hn
    by_cases h : q.1 = id
    · simp only [mapSet, h, decide_True, if_true, memKeys, List.map_cons, List.nodup_cons]
      exact ⟨by simpa [h] using hn.1, hn.2⟩
    · simp only [mapSet, h, decide_False, Bool.false_eq_true, if_false, memKeys,
        List.map_cons, List.nodup_cons]
      refine ⟨fun hmem => ?_, ih hn.2⟩
      rcases mem_memKeys_mapSet rest id v q.1 hmem with h1 | h1
      · exact h h1
      · exact hn.1 h1

theorem count_mapSet_le_one (m : MemQueue) (id : String) (v : UploadQueueRecord)
    (h0 : countUploading m = 0) : countUploading (mapSet m id v) ≤ 1 := by
  induction m with
  | nil => simp [mapSet, countUploading, List.countP_cons]; split <;> simp
  | cons q rest ih =>
    simp only [countUploading, List.countP_cons] at h0 ⊢
    have h1 : rest.countP (fun p => decide (p.2.status = UploadStatus.uploading)) = 0 := by omega
    have h2 : ¬ q.2.status = UploadStatus.uploading := by
      by_contra hq
      simp [hq] at h0
    by_cases h : q.1 = id
    · simp [mapSet, h, countUploading, List.countP_cons, h1]
      split <;> simp
    · simp only [mapSet, h, decide_False, if_false, countUploading, List.countP_cons]
      have := ih h1
      simp only [countUploading] at this
      simp [h2]
      omega

theorem count_mapSet_zero_of_zero (m : MemQueue) (id : String) (v : UploadQueueRecord)
    (h0 : countUploading m = 0) (hv : ¬ v.status = UploadStatus.uploading) :
    countUploading (mapSet m id v) = 0 := by
  rw [count_zero_iff]
  intro p hp hup
  rcases mem_mapSet m id v p hp with h | h
  · exact hv (by simpa [h] using hup)
  · exact (count_zero_iff m).mp h0 p h hup

theorem upOnly_mapSet (m : MemQueue) (id : String) (v : UploadQueueRecord)
    (h : uploadingOnlyAt m id) : uploadingOnlyAt (mapSet m id v) id := by
  intro p hp hup
  rcases mem_mapSet m id v p hp with h1 | h1
  · simp [h1]
  · exact h p h1 hup

theorem count_mapSet_zero_of_upOnly (m : MemQueue) (id : String) (v : UploadQueueRecord)
    (h : uploadingOnlyAt m id) (hn : (memKeys m).Nodup)
    (hv : ¬ v.status = UploadStatus.uploading) :
    countUploading (mapSet m id v) = 0 := by
  induction m with
  | nil => simp [mapSet, countUploading, List.countP_cons, hv]
  | cons q rest ih =>
    simp only [memKeys, List.map_cons, List.nodup_cons] at hn
    by_cases hq : q.1 = id
    · have hrest : countUploading rest = 0 := by
        refine count_zero_of_not_key rest id ?_ ?_
        · intro p hp hup
          exact h p (List.mem_cons_of_mem q hp) hup
        · rw [← hq]
          exact fun hmem => hn.1 (by simpa [memKeys] using hmem)
      simp [mapSet, hq, countUploading, List.countP_cons, hv] at hrest ⊢
      exact hrest
    · have hqup : ¬ q.2.status = UploadStatus.uploading := fun hup => hq (h q (List.mem_cons_self q rest) hup)
      have := ih (fun p hp hup => h p (List.mem_cons_of_mem q hp) hup) hn.2
      simp only [mapSet, hq, decide_False, if_false, countUploading, List.countP_cons] at this ⊢
      simp [hqup, this]

theorem memKeys_mapUpdate (m : MemQueue) (id : String) (f : UploadQueueRecord → UploadQueueRecord) :
    memKeys (mapUpdate m id f) = memKeys m := by
  induction m with
  | nil => simp [mapUpdate, memKeys]
  | cons q rest ih =>
    by_cases h : q.1 = id <;>
      simp [mapUpdate, memKeys, h] at ih ⊢ <;> exact ih

theorem mem_mapUpdate (m : MemQueue) (id : String) (f : UploadQueueRecord → UploadQueueRecord)
    (p : String × UploadQueueRecord) (hp : p ∈ mapUpdate m id f) :
    p.1 = id ∨ p ∈ m := by
  simp only [mapUpdate, List.mem_map] at hp
  obtain ⟨q, hq, heq⟩ := hp
  by_cases h : q.1 = id
  · left
    simp [h] at heq
    simp [← heq]
  · right
    simp [h] at heq
    simpa [← heq] using hq

theorem count_mapUpdate_status (m : MemQueue) (id : String)
    (f : UploadQueueRecord → UploadQueueRecord)
    (hf : ∀ x, (f x).status = x.status) :
    countUploading (mapUpdate m id f) = countUploading m := by
  induction m with
  | nil => simp [mapUpdate, countUploading]
  | cons q rest ih =>
    by_cases h : q.1 = id <;>
      simp [mapUpdate, countUploading, List.countP_cons, h, hf] at ih ⊢ <;> omega

theorem upOnly_mapUpdate (m : MemQueue) (id : String)
    (f : UploadQueueRecord → UploadQueueRecord)
    (h : uploadingOnlyAt m id) : uploadingOnlyAt (mapUpdate m id f) id := by
  intro p hp hup
  rcases mem_mapUpdate m id f p hp with h1 | h1
  · exact h1
  · exact h p h1 hup

theorem count_mapDelete_zero_of_upOnly (m : MemQueue) (id : String)
    (h : uploadingOnlyAt m id) : countUploading (mapDelete m id) = 0 := by
  rw [count_zero_iff]
  intro p hp hup
  simp only [mapDelete, List.mem_filter] at hp
  have hne : ¬ p.1 = id := by simpa using hp.2
  exact hne (h p hp.1 hup)

theorem nodup_mapDelete (m : MemQueue) (id : String)
    (hn : (memKeys m).Nodup) : (memKeys (mapDelete m id)).Nodup := by
  exact hn.sublist ((List.filter_sublist m).map Prod.fst)

theorem updateItemStatus_db (s : QueueState) (id : String) (st : UploadStatus)
    (msg : Option String) : (updateItemStatus s id st msg).db = s.db := by
  unfold updateItemStatus
  cases mapGet s.queue id <;> simp

theorem updateItemStatus_retryTimer (s : QueueState) (id : String) (st : UploadStatus)
    (msg : Option String) : (updateItemStatus s id st msg).retryTimer = s.retryTimer := by
  unfold updateItemStatus
  cases mapGet s.queue id <;> simp

theorem mapGet_none_not_key (m : MemQueue) (id : String)
    (h : mapGet m id = none) : ¬ id ∈ memKeys m := by
  simp only [mapGet, Option.map_eq_none', List.find?_eq_none] at h
  intro hk
  simp only [memKeys, List.mem_map] at hk
  obtain ⟨p, hp, heq⟩ := hk
  have := h p hp
  simp [heq] at this

theorem count_updateItemStatus_le_one (s : QueueState) (id : String) (st : UploadStatus)
    (msg : Option String) (h0 : countUploading s.queue = 0) :
    countUploading (updateItemStatus s id st msg).queue ≤ 1 := by
  unfold updateItemStatus
  cases mapGet s.queue id with
  | none => simp [h0]
  | some item => simpa using count_mapSet_le_one s.queue id _ h0

theorem upOnly_updateItemStatus (s : QueueState) (id : String) (st : UploadStatus)
    (msg : Option String) (h : uploadingOnlyAt s.queue id) :
    uploadingOnlyAt (updateItemStatus s id st msg).queue id := by
  unfold updateItemStatus
  cases mapGet s.queue id with
  | none => simpa using h
  | some item => simpa using upOnly_mapSet s.queue id _ h

theorem nodup_updateItemStatus (s : QueueState) (id : String) (st : UploadStatus)
    (msg : Option String) (hn : (memKeys s.queue).Nodup) :
    (memKeys (updateItemStatus s id st msg).queue).Nodup := by
  unfold updateItemStatus
  cases mapGet s.queue id with
  | none => simpa using hn
  | some item => simpa using nodup_mapSet s.queue id _ hn

theorem count_updateItemStatus_zero (s : QueueState) (id : String) (st : UploadStatus)
    (msg : Option String) (h : uploadingOnlyAt s.queue id)
    (hn : (memKeys s.queue).Nodup) (hst : ¬ st = UploadStatus.uploading) :
    countUploading (updateItemStatus s id st msg).queue = 0 := by
  unfold updateItemStatus
  cases hg : mapGet s.queue id with
  | none =>
    simpa using count_zero_of_not_key s.queue id h (mapGet_none_not_key s.queue id hg)
  | some item =>
    simpa using count_mapSet_zero_of_upOnly s.queue id _ h hn (by simpa using hst)

theorem mem_insertByCreatedAt (r x : UploadQueueRecord) (l : List UploadQueueRecord)
    (hx : x ∈ insertByCreatedAt r l) : x = r ∨ x ∈ l := by
  induction l with
  | nil => simpa [insertByCreatedAt] using hx
  | cons q rest ih =>
    by_cases h : q.created_at ≤ r.created_at
    · simp only [insertByCreatedAt, if_pos h, List.mem_cons] at hx
      rcases hx with hx | hx
      · exact Or.inr (by simp [hx])
      · rcases ih hx with h1 | h1
        · exact Or.inl h1
        · exact Or.inr (List.mem_cons_of_mem q h1)
    · simp only [insertByCreatedAt, if_neg h, List.mem_cons] at hx
      rcases hx with hx | hx
      · exact Or.inl hx
      · exact Or.inr (by simpa using hx)

theorem mem_sortByCreatedAt (x : UploadQueueRecord) (l : List UploadQueueRecord)
    (hx : x ∈ sortByCreatedAt l) : x ∈ l := by
  induction l with
  | nil => simp [sortByCreatedAt] at hx
  | cons q rest ih =>
    rcases mem_insertByCreatedAt q x (sortByCreatedAt rest) hx with h | h
    · simp [h]
    · exact List.mem_cons_of_mem q (ih h)

theorem mem_getPendingUploads_status (db : List UploadQueueRecord) (lim : Option Nat)
    (off : Nat) (r : UploadQueueRecord) (hr : r ∈ getPendingUploads db lim off) :
    r.status = UploadStatus.pending ∨ r.status = UploadStatus.failed := by
  have hbase : r ∈ sortByCreatedAt (db.filter isPendingOrFailed) → _ := fun h =>
    (List.mem_filter.mp (mem_sortByCreatedAt r _ h)).2
  have : isPendingOrFailed r = true := by
    rcases lim with _ | l
    · exact hbase hr
    · by_cases hl : l ≠ 0
      · simp only [getPendingUploads, if_pos hl] at hr
        exact hbase (List.drop_subset off _ (List.take_subset l _ hr))
      · simp only [getPendingUploads, if_neg hl] at hr
        exact hbase hr
  simpa [isPendingOrFailed] using this

theorem queue_persistStatus (s : QueueState) (id : String) (st : UploadStatus)
    (rc : Option Nat) (msg : Option String) (now : Nat) :
    (persistStatus s id st rc msg now).queue = s.queue := rfl

theorem queue_scheduleQueueProcessing (s : QueueState) (d : Nat) :
    (scheduleQueueProcessing s d).queue = s.queue := rfl

theorem queue_deleteFromMemory (s : QueueState) (id : String) :
    (deleteFromMemory s id).queue = mapDelete s.queue id := rfl

theorem count_bumpRetryCount (s : QueueState) (id : String) (rc : Nat) :
    countUploading (bumpRetryCount s id rc).queue = countUploading s.queue := by
  simpa [bumpRetryCount] using
    count_mapUpdate_status s.queue id (fun r => { r with retry_count := rc }) (fun x => rfl)

theorem keys_bumpRetryCount (s : QueueState) (id : String) (rc : Nat) :
    memKeys (bumpRetryCount s id rc).queue = memKeys s.queue := by
  simpa [bumpRetryCount] using memKeys_mapUpdate s.queue id _

theorem upOnly_bumpRetryCount (s : QueueState) (id : String) (rc : Nat)
    (h : uploadingOnlyAt s.queue id) : uploadingOnlyAt (bumpRetryCount s id rc).queue id := by
  simpa [bumpRetryCount] using upOnly_mapUpdate s.queue id _ h

theorem count_setNextRetryAt (s : QueueState) (id : String) (t : Nat) :
    countUploading (setNextRetryAt s id t).queue = countUploading s.queue := by
  simpa [setNextRetryAt] using
    count_mapUpdate_status s.queue id (fun r => { r with next_retry_at := t }) (fun x => rfl)

theorem keys_setNextRetryAt (s : QueueState) (id : String) (t : Nat) :
    memKeys (setNextRetryAt s id t).queue = memKeys s.queue := by
  simpa [setNextRetryAt] using memKeys_mapUpdate s.queue id _

theorem processItemT_inv (env : UploadEnv) (now : Nat) (s : QueueState)
    (item : UploadQueueRecord)
    (h0 : countUploading s.queue = 0) (hn : (memKeys s.queue).Nodup) :
    (∀ t ∈ (processItemT env now s item).1, countUploading t.queue ≤ 1)
    ∧ countUploading (processItemT env now s item).2.queue = 0
    ∧ (memKeys (processItemT env now s item).2.queue).Nodup := by
  have hup : uploadingOnlyAt s.queue item.id := upOnly_of_count_zero _ _ h0
  by_cases hc : env.isConnected = false
  · simp [processItemT, hc, h0, hn]
  · by_cases hm : maxRetries ≤ item.retry_count
    · have c1 := count_updateItemStatus_zero s item.id UploadStatus.failed none hup hn (by simp)
      have n1 := nodup_updateItemStatus s item.id UploadStatus.failed none hn
      simp [processItemT, hc, hm, h0, c1, n1]
    · have c1 : countUploading (updateItemStatus s item.id UploadStatus.uploading none).queue ≤ 1 :=
        count_updateItemStatus_le_one s item.id _ none h0
      have u1 : uploadingOnlyAt (updateItemStatus s item.id UploadStatus.uploading none).queue item.id :=
        upOnly_updateItemStatus s item.id _ none hup
      have n1 : (memKeys (updateItemStatus s item.id UploadStatus.uploading none).queue).Nodup :=
        nodup_updateItemStatus s item.id _ none hn
      by_cases hs : (env.metadataSuccess && (item.video_uri.isNone || env.videoSuccess)) = true
      · have c2 : countUploading
            (mapDelete (updateItemStatus s item.id UploadStatus.uploading none).queue item.id) = 0 :=
          count_mapDelete_zero_of_upOnly _ item.id u1
        have n2 : (memKeys
            (mapDelete (updateItemStatus s item.id UploadStatus.uploading none).queue item.id)).Nodup :=
          nodup_mapDelete _ item.id n1
        simp [processItemT, hc, hm, hs, h0, c1, c2, n2, queue_persistStatus, queue_deleteFromMemory]
      · have c2 : countUploading
            (bumpRetryCount (updateItemStatus s item.id UploadStatus.uploading none) item.id
              (item.retry_count + 1)).queue ≤ 1 := by
          rw [count_bumpRetryCount]
          exact c1
        have u2 : uploadingOnlyAt
            (bumpRetryCount (updateItemStatus s item.id UploadStatus.uploading none) item.id
              (item.retry_count + 1)).queue item.id :=
          upOnly_bumpRetryCount _ item.id _ u1
        have n2 : (memKeys
            (bumpRetryCount (updateItemStatus s item.id UploadStatus.uploading none) item.id
              (item.retry_count + 1)).queue).Nodup := by
          rw [keys_bumpRetryCount]
          exact n1
        have c3 : countUploading
            (updateItemStatus
              (bumpRetryCount (updateItemStatus s item.id UploadStatus.uploading none) item.id
                (item.retry_count + 1)) item.id UploadStatus.failed
              (some (attemptErrorMessage env))).queue = 0 :=
          count_updateItemStatus_zero _ item.id _ _ u2 n2 (by simp)
        have n3 : (memKeys
            (updateItemStatus
              (bumpRetryCount (updateItemStatus s item.id UploadStatus.uploading none) item.id
                (item.retry_count + 1)) item.id UploadStatus.failed
              (some (attemptErrorMessage env))).queue).Nodup :=
          nodup_updateItemStatus _ item.id _ _ n2
        by_cases hr : item.retry_count + 1 < maxRetries
        · simp [processItemT, hc, hm, hs, hr, h0, c1, c2, c3, n3, queue_persistStatus,
            queue_scheduleQueueProcessing, count_setNextRetryAt, keys_setNextRetryAt]
        · simp [processItemT, hc, hm, hs, hr, h0, c1, c2, c3, n3, queue_persistStatus]

theorem processBatchT_inv (env : UploadEnv) (now : Nat) (items : List UploadQueueRecord) :
    ∀ s : QueueState, countUploading s.queue = 0 → (memKeys s.queue).Nodup →
      (∀ i ∈ items, ¬ i.status = UploadStatus.uploading) →
      (∀ t ∈ (processBatchT env now s items).1, countUploading t.queue ≤ 1)
      ∧ countUploading (processBatchT env now s items).2.queue = 0
      ∧ (memKeys (processBatchT env now s items).2.queue).Nodup := by
  induction items with
  | nil =>
    intro s h0 hn _
    simp [processBatchT, h0, hn]
  | cons item rest ih =>
    intro s h0 hn hitems
    have hitem : ¬ item.status = UploadStatus.uploading :=
      hitems item (List.mem_cons_self item rest)
    have hrest : ∀ i ∈ rest, ¬ i.status = UploadStatus.uploading :=
      fun i hi => hitems i (List.mem_cons_of_mem item hi)
    have c0 : countUploading (mapSet s.queue item.id item) = 0 :=
      count_mapSet_zero_of_zero s.queue item.id item h0 hitem
    have n0 : (memKeys (mapSet s.queue item.id item)).Nodup :=
      nodup_mapSet s.queue item.id item hn
    have hpi := processItemT_inv env now { s with queue := mapSet s.queue item.id item } item c0 n0
    have hb := ih (processItemT env now { s with queue := mapSet s.queue item.id item } item).2
      hpi.2.1 hpi.2.2 hrest
    constructor
    · intro t ht
      simp only [processBatchT, List.mem_cons, List.mem_append] at ht
      rcases ht with (ht | ht) | ht
      · rw [ht]
        exact le_trans (Nat.le_of_eq c0) (Nat.zero_le 1)
      · exact hpi.1 t ht
      · exact hb.1 t ht
    · exact ⟨hb.2.1, hb.2.2⟩

theorem processLoopT_inv (env : UploadEnv) (now : Nat) (fuel : Nat) :
    ∀ (offset : Nat) (s : QueueState), countUploading s.queue = 0 → (memKeys s.queue).Nodup →
      (∀ t ∈ (processLoopT env now fuel offset s).1, countUploading t.queue ≤ 1)
      ∧ countUploading (processLoopT env now fuel offset s).2.queue = 0
      ∧ (memKeys (processLoopT env now fuel offset s).2.queue).Nodup := by
  induction fuel with
  | zero =>
    intro o s h0 hn
    simp [processLoopT, h0, hn]
  | succ fuel ih =>
    intro o s h0 hn
    by_cases he : (getPendingUploads s.db (some BATCH_SIZE) o).isEmpty = true
    · simp [processLoopT, he, h0, hn]
    · have hitems : ∀ i ∈ (getPendingUploads s.db (some BATCH_SIZE) o).filter
          (fun r => decide (r.next_retry_at ≤ now)), ¬ i.status = UploadStatus.uploading := by
        intro i hi
        rcases mem_getPendingUploads_status s.db (some BATCH_SIZE) o i
          (List.mem_filter.mp hi).1 with h | h <;> simp [h]
      have hb := processBatchT_inv env now
        ((getPendingUploads s.db (some BATCH_SIZE) o).filter
          (fun r => decide (r.next_retry_at ≤ now))) s h0 hn hitems
      have hl := ih (o + BATCH_SIZE)
        (processBatchT env now s
          ((getPendingUploads s.db (some BATCH_SIZE) o).filter
            (fun r => decide (r.next_retry_at ≤ now)))).2 hb.2.1 hb.2.2
      constructor
      · intro t ht
        simp only [processLoopT, he, Bool.false_eq_true, if_false, List.mem_append] at ht
        rcases ht with ht | ht
        · exact hb.1 t ht
        · exact hl.1 t ht
      · simpa [processLoopT, he] using ⟨hl.2.1, hl.2.2⟩

theorem processQueue_guard (env : UploadEnv) (now : Nat) (s : QueueState)
    (h : s.isProcessing = true) : processQueue env now s = s := by
  simp [processQueue, processQueueT, h]

theorem processQueueT_inv (env : UploadEnv) (now : Nat) (s : QueueState)
    (h0 : countUploading s.queue = 0) (hn : (memKeys s.queue).Nodup) :
    ∀ t ∈ (processQueueT env now s).1, countUploading t.queue ≤ 1 := by
  by_cases hp : s.isProcessing = true
  · simp [processQueueT, hp, h0]
  · have hl := processLoopT_inv env now (s.db.length + 1) 0 { s with isProcessing := true } h0 hn
    intro t ht
    simp only [processQueueT, hp, Bool.false_eq_true, if_false, List.mem_cons, List.mem_append,
      List.mem_singleton] at ht
    rcases ht with (ht | ht | ht) | ht
    · rw [ht]
      exact le_trans (Nat.le_of_eq h0) (Nat.zero_le 1)
    · rw [ht]
      exact le_trans (Nat.le_of_eq h0) (Nat.zero_le 1)
    · exact hl.1 t ht
    · rcases ht with ht | ht
      · rw [ht]
        exact le_trans (Nat.le_of_eq hl.2.1) (Nat.zero_le 1)
      · exact absurd ht (List.not_mem_nil t)

/-- C8: the single-flight guard — `processQueue` on a state whose
`isProcessing` flag is set returns it unchanged with no effect — and
mutual exclusion: starting from a memory map with unique keys and no
`uploading` entry, every intermediate state of a processing pass (items
are attempted serially by construction of `processBatchT`) has at most
one entry in `uploading` status. -/
theorem c8_single_flight (env : UploadEnv) (now : Nat) (s sg : QueueState)
    (hg : sg.isProcessing = true) (h0 : countUploading s.queue = 0)
    (hn : (memKeys s.queue).Nodup) :
    processQueue env now sg = sg
    ∧ ((processQueueT env now s).1.all fun t => decide (countUploading t.queue ≤ 1)) = true := by
  refine ⟨processQueue_guard env now sg hg, ?_⟩
  rw [List.all_eq_true]
  intro t ht
  simpa using processQueueT_inv env now s h0 hn t ht

theorem c8_witness :
    processQueue envOK 100 ⟨[], [], true, none⟩ = ⟨[], [], true, none⟩
    ∧ ((processQueueT envOK 100 c2Start).1.all fun t => decide (countUploading t.queue ≤ 1)) = true :=
  c8_single_flight envOK 100 c2Start ⟨[], [], true, none⟩ rfl (by decide) (by decide)

/-- C4 (amended): `updateItemStatus` never touches the durable store,
so the transition to `uploading` (and the `failed` mark for exhausted
items) is memory-only and the two representations diverge during an
attempt; the attempt's terminal outcome, however, is persisted before
`processItem` returns: the durable row ends `completed` on success and
`failed` on failure. -/
theorem c4_amended_thm (s0 : QueueState) (id : String) (st : UploadStatus) (msg : Option String)
    (env : UploadEnv) (now : Nat) (r : UploadQueueRecord)
    (hconn : env.isConnected = true) (hrc : r.retry_count < maxRetries) :
    (updateItemStatus s0 id st msg).db = s0.db
    ∧ (updateItemStatus s0 id st msg).retryTimer = s0.retryTimer
    ∧ ((getUploadQueueItem (processItem env now ⟨[r], [(r.id, r)], false, none⟩ r).db r.id).map
        fun x => x.status)
      = some (if env.metadataSuccess && (r.video_uri.isNone || env.videoSuccess)
              then UploadStatus.completed else UploadStatus.failed) := by
  refine ⟨updateItemStatus_db s0 id st msg, updateItemStatus_retryTimer s0 id st msg, ?_⟩
  obtain ⟨conn, ms, vs, me, ve⟩ := env
  simp only at hconn
  subst hconn
  have hnle : ¬ (maxRetries ≤ r.retry_count) := Nat.not_le.mpr hrc
  by_cases hrc2 : r.retry_count + 1 < maxRetries <;>
  cases ms <;> cases vs <;> cases hv : r.video_uri <;>
    simp [processItem, processItemT, hnle, updateItemStatus, mapGet, mapSet, List.find?,
      mapDelete, mapUpdate, updateUploadQueueStatus, getUploadQueueItem,
      deleteFromMemory, persistStatus, bumpRetryCount, setNextRetryAt,
      attemptErrorMessage, scheduleQueueProcessing, hv, hrc2]

/-- Witness for `c4_amended_thm` at a concrete state and record. -/
theorem c4_amended_witness :
    (updateItemStatus ⟨[freshRec], [("a", freshRec)], false, none⟩ "a"
        UploadStatus.uploading none).db = [freshRec]
    ∧ ((getUploadQueueItem (processItem envOK 10
          ⟨[freshRec], [("a", freshRec)], false, none⟩ freshRec).db "a").map
        fun x => x.status)
      = some (if envOK.metadataSuccess && (freshRec.video_uri.isNone || envOK.videoSuccess)
              then UploadStatus.completed else UploadStatus.failed) := by
  have h := c4_amended_thm ⟨[freshRec], [("a", freshRec)], false, none⟩ "a"
    UploadStatus.uploading none envOK 10 freshRec rfl (by decide)
  exact ⟨h.1, h.2.2⟩

/-- Witness for `c5_amended_thm` at a concrete item. -/
theorem c5_amended_witness :
    (addToQueue envOff 7 ⟨[], [], false, none⟩ (mkItem "a")).error = none
    ∧ mapGet (addToQueue envOff 7 ⟨[], [], false, none⟩ (mkItem "a")).state.queue "a"
        = some (mkQueueRecord (mkItem "a") 7)
    ∧ mapHas (addToQueue envOff 7
        ⟨[mkQueueRecord (mkItem "a") 7], [], false, none⟩ (mkItem "a")).state.queue "a" = false := by
  have h := c5_amended_thm envOff (mkItem "a") 7 [] rfl
  obtain ⟨h1, h2, h3, h4, h5, h6, h7, h8, h9, h10, h11⟩ := h
  exact ⟨h5, h8, h10⟩

/-- Witness for `c6_attempt_outcome`: a fresh metadata-only item uploaded
in the all-success environment ends `completed`. -/
theorem c6_attempt_outcome_witness :
    ((getUploadQueueItem (processItem envOK 10
        ⟨[freshRec], [("a", freshRec)], false, none⟩ freshRec).db "a").map
      fun x => x.status) = some UploadStatus.completed := by
  have h := c6_attempt_outcome envOK 10 freshRec rfl (by decide) rfl
  exact h.1.mpr ⟨rfl, Or.inl rfl⟩

/-- Witness for `c7_terminal` at a concrete record and times. -/
theorem c7_terminal_witness :
    (processQueue envFail 10 ⟨[freshRec], [("a", freshRec)], false, none⟩).retryTimer = some 5000
    ∧ (processQueue envFail 20
        { processQueue envFail 10 ⟨[freshRec], [("a", freshRec)], false, none⟩ with
          retryTimer := none }).retryTimer = some 10000 := by
  have h := c7_terminal envFail freshRec 10 20 30 40 rfl rfl rfl rfl rfl
  exact ⟨h.1, h.2.1⟩

/-- Witness for `c9_duplicate_enqueue` at a concrete duplicate id. -/
theorem c9_witness :
    (addToQueue envOK 5 ⟨[freshRec], [("a", freshRec)], false, none⟩
        (mkItem "a")).error.isSome = true
    ∧ mapHas (addToQueue envOK 5 ⟨[freshRec], [("a", freshRec)], false, none⟩
        (mkItem "a")).state.queue "a" = false
    ∧ (addToQueue envOK 5 ⟨[freshRec], [("a", freshRec)], false, none⟩
        (mkItem "a")).state.db = [freshRec] := by
  have h := c9_duplicate_enqueue envOK 5 ⟨[freshRec], [("a", freshRec)], false, none⟩
    (mkItem "a") freshRec (by decide) (by decide)
  exact h

/-- Witness for `c10_clear_queue` at a concrete state with a failing
bulk delete. -/
theorem c10_witness :
    (clearQueue false ⟨[freshRec], [("a", freshRec)], false, none⟩).state.queue = []
    ∧ (clearQueue false ⟨[freshRec], [("a", freshRec)], false, none⟩).error.isSome = true
    ∧ (clearQueue false ⟨[freshRec], [("a", freshRec)], false, none⟩).state.db = [freshRec] := by
  have h := c10_clear_queue ⟨[freshRec], [("a", freshRec)], false, none⟩ false
  exact ⟨h.1, (h.2.2.1 rfl).1, (h.2.2.1 rfl).2⟩
